import Mathlib

/-!
Verification of the versioned FHIR resource store
(`src/fhir-resource-manager/resourceManager.ts`).

The DynamoDB table is modelled as a list of items.  Key strings are
modelled structurally by their injective components:

* the primary key string `RESOURCE#<resourceType>#<id>` is modelled as the
  pair `(resourceType, id)` (resource types come from a fixed set without
  the `#` character, so the string encoding is injective);
* the sort key string `v<n>` is modelled by the number `n`
  (`n ↦ "v" ++ toString n` is injective);
* the GSI1 partition key `RESOURCE_TYPE#<resourceType>` is modelled by
  `resourceType`, and the GSI2 partition key `PATIENT#<x>` by `x`;
* the GSI1 sort key `CREATED#<iso-timestamp>` or `UPDATED#<iso-timestamp>`
  is modelled as a pair of a mark and a numeric timestamp.  DynamoDB
  orders these strings by bytes; since the two marks differ at the first
  character with CREATED < UPDATED, and ISO timestamps of the fixed
  `formatISO` shape compare lexicographically exactly like the instants
  they denote, the byte order of the concatenated string is the
  lexicographic order on (mark, timestamp) used here;
* `meta.versionId` is stored by the code as the decimal string produced by
  `String(n)` and read back with `parseInt`; this round trip is the
  identity on the values the store writes, so versions are modelled as
  numbers;
* ISO timestamps produced by `formatISO(new Date())` are modelled as
  numbers.

The wall clock and the uuid generator are external collaborators; each
operation takes the timestamp (and, where used, the fresh id) as an
explicit argument.
-/

/-- Mark of a GSI1 sort key: `CREATED#...` rows are written by create,
`UPDATED#...` rows by update. -/
inductive GsiMark where
  | created
  | updated
deriving DecidableEq

/-- Rank realising the byte order of the two mark strings
(`"CREATED" < "UPDATED"`). -/
def GsiMark.rank : GsiMark → Nat
  | .created => 0
  | .updated => 1

/-- Lexicographic order on modelled GSI1 sort keys, matching the byte
order DynamoDB uses on the underlying `<MARK>#<timestamp>` strings. -/
def gsiKeyLe (a b : GsiMark × Nat) : Prop :=
  a.1.rank < b.1.rank ∨ (a.1.rank = b.1.rank ∧ a.2 ≤ b.2)

instance (a b : GsiMark × Nat) : Decidable (gsiKeyLe a b) := by
  unfold gsiKeyLe; infer_instance

/-- The `meta` block stamped on every stored resource by `addMetadata`. -/
structure FhirMeta where
  versionId : Nat
  lastUpdated : Nat
  profile : List String
deriving DecidableEq

/-- A FHIR resource as returned by the store.  `subjectRef` models the
optional `subject.reference` path, `deletedMarker` the `_deleted` key the
delete path writes, and `body` the remaining kind-specific fields, which
the store never inspects. -/
structure FHIRRes where
  resourceType : Option String
  id : Option String
  meta : FhirMeta
  subjectRef : Option String
  deletedMarker : Bool
  body : String
deriving DecidableEq

/-- A caller-supplied payload (`resource : any` in the source).  The store
only reads `resourceType`, `id`, `meta.profile` and `subject.reference`
from it; everything else is the opaque `body`.  The code also rejects
non-object payloads, a case a typed payload cannot represent. -/
structure Payload where
  resourceType : Option String
  id : Option String
  metaProfile : Option (List String)
  subjectRef : Option String
  deletedMarker : Bool
  body : String
deriving DecidableEq

/-- A DynamoDB item of the resource table, with key strings modelled
structurally as explained at the top of the file.  `deleted` is `none`
when the attribute is absent. -/
structure Item where
  PK : String × String
  SK : Nat
  resourceType : String
  resourceId : String
  lastUpdated : Nat
  versionId : Nat
  resource : FHIRRes
  gsi1PK : String
  gsi1SK : GsiMark × Nat
  gsi2PK : String
  gsi2SK : String × String
  deleted : Option Bool
deriving DecidableEq

/-- The DynamoDB table, as the list of its items. -/
abbrev Table := List Item

/-- DynamoDB `GetCommand`: the item stored under the composite primary
key, if any. -/
def getItem (t : Table) (pk : String × String) (sk : Nat) : Option Item :=
  t.find? fun it => decide (it.PK = pk ∧ it.SK = sk)

/-- DynamoDB `PutCommand` without a condition: overwrite the item with the
same key, or insert. -/
def putItem (t : Table) (x : Item) : Table :=
  match getItem t x.PK x.SK with
  | some _ => t.map fun it => if it.PK = x.PK ∧ it.SK = x.SK then x else it
  | none => t ++ [x]

/-- The `UpdateCommand` issued by `updateResource` on the `v1` row: `SET`
of the `resource`, `lastUpdated` and `versionId` attributes; all other
attributes of the row (its GSI keys, a `deleted` flag) are left as they
are.  In the update flow the row always exists, so the upsert branch of
`UpdateCommand` is not modelled. -/
def updatePointer (t : Table) (pk : String × String) (r : FHIRRes)
    (vid lu : Nat) : Table :=
  t.map fun it =>
    if it.PK = pk ∧ it.SK = 1 then
      { it with resource := r, lastUpdated := lu, versionId := vid }
    else it

/-- `validateResourceType` from the source. -/
def validateResourceType (resourceType : String) : Bool :=
  ["Patient", "Encounter", "Practitioner", "DocumentReference",
    "Observation", "Condition"].contains resourceType

/-- JavaScript `a || b` on an optional string: the default is taken when
the value is absent or the empty string (both falsy). -/
def jsOr (o : Option String) (d : String) : String :=
  match o with
  | some s => if s = "" then d else s
  | none => d

/-- JavaScript truthiness of an optional string parameter. -/
def jsTruthy (o : Option String) : Bool :=
  match o with
  | some s => decide (s ≠ "")
  | none => false

/-- JavaScript `String.prototype.split` on the slash character, written
as structural recursion over the character list of the string. -/
def splitSlashAux (l : List Char) (acc : List Char) : List (List Char) :=
  match l with
  | [] => [acc.reverse]
  | c :: rest =>
    if c = (Char.ofNat 47) then acc.reverse :: splitSlashAux rest []
    else splitSlashAux rest (c :: acc)

/-- `s.split('/')` from the source, over the modelled string. -/
def splitSlash (s : String) : List String :=
  (splitSlashAux s.toList []).map fun cs => String.mk cs

/-- The owner bucket computed from the payload:
`resource.subject?.reference?.split('/')[1] || 'unknown'`. -/
def ownerOf (ref : Option String) : String :=
  match ref with
  | none => "unknown"
  | some s =>
    match (splitSlash s).get? 1 with
    | none => "unknown"
    | some seg => if seg = "" then "unknown" else seg

/-- The resource-type mismatch test of create and update:
`resource.resourceType && resource.resourceType !== resourceType`
(an empty string is falsy, hence never a mismatch). -/
def kindMismatch (p : Payload) (resourceType : String) : Bool :=
  match p.resourceType with
  | some s => decide (s ≠ "" ∧ s ≠ resourceType)
  | none => false

/-- `addMetadata` from the source: stamps `versionId` (previous + 1 on
update, otherwise 1), `lastUpdated := now`, and a default profile derived
from `resource.resourceType` when the payload carries none.  A missing
`resourceType` renders as the string `"undefined"` in the template
literal, as in JavaScript. -/
def addMetadata (resource : Payload) (isUpdate : Bool)
    (existingVersionId : Option Nat) (now : Nat) : FHIRRes :=
  let versionId :=
    match isUpdate, existingVersionId with
    | true, some v => v + 1
    | _, _ => 1
  { resourceType := resource.resourceType
    id := resource.id
    meta :=
      { versionId := versionId
        lastUpdated := now
        profile := resource.metaProfile.getD
          ["http://hl7.org/fhir/StructureDefinition/" ++
            (resource.resourceType.getD "undefined")] }
    subjectRef := resource.subjectRef
    deletedMarker := resource.deletedMarker
    body := resource.body }

/-- Errors thrown by the store.  `backendFailure` wraps any storage error
(`Failed to <op> resource: ...`); `notFound` carries `statusCode = 404`
in the source and is rethrown as-is. -/
inductive FhirError where
  | unsupportedType (resourceType : String)
  | invalidId
  | typeMismatch (expected got : String)
  | notFound (resourceType id : String)
  | alreadyExists (resourceType id : String)
  | backendFailure (op msg : String)
deriving DecidableEq

/-- `createResource` from the source: validate, take the payload id or a
fresh uuid, stamp metadata, and insert the `v1` row under the condition
`attribute_not_exists(PK)`, which DynamoDB evaluates against the item
stored at the written key, so the insert is rejected exactly when a row
with this key already exists. -/
def createResource (t : Table) (now : Nat) (freshId : String)
    (resourceType : String) (p : Payload) :
    Except FhirError (FHIRRes × Table) :=
  if ¬ validateResourceType resourceType then
    .error (.unsupportedType resourceType)
  else if kindMismatch p resourceType then
    .error (.typeMismatch resourceType (p.resourceType.getD ""))
  else
    let resourceId := jsOr p.id freshId
    let rwm := addMetadata
      { p with resourceType := some resourceType, id := some resourceId }
      false none now
    let pk := (resourceType, resourceId)
    let item : Item :=
      { PK := pk
        SK := 1
        resourceType := resourceType
        resourceId := resourceId
        lastUpdated := rwm.meta.lastUpdated
        versionId := rwm.meta.versionId
        resource := rwm
        gsi1PK := resourceType
        gsi1SK := (.created, rwm.meta.lastUpdated)
        gsi2PK :=
          if resourceType = "Patient" then resourceId
          else ownerOf p.subjectRef
        gsi2SK := (resourceType, resourceId)
        deleted := none }
    match getItem t pk 1 with
    | some _ => .error (.alreadyExists resourceType resourceId)
    | none => .ok (rwm, t ++ [item])

/-- A backend response to the `GetCommand` of `getResource`: either the
(possibly absent) item, or a transport/storage failure. -/
inductive GetResp where
  | ok (item : Option Item)
  | err (msg : String)

/-- `getResource` from the source: validation, then the lookup of the
`v1` row.  A missing item raises the 404 `notFound` error, which the
catch block rethrows unchanged; any backend failure is wrapped into the
generic `Failed to retrieve resource` error instead. -/
def getResource (resourceType id : String) (resp : GetResp) :
    Except FhirError FHIRRes :=
  if ¬ validateResourceType resourceType then
    .error (.unsupportedType resourceType)
  else if id = "" then
    .error .invalidId
  else
    match resp with
    | .err msg => .error (.backendFailure "retrieve" msg)
    | .ok none => .error (.notFound resourceType id)
    | .ok (some item) => .ok item.resource

/-- A read against the table with a reliable backend. -/
def readCurrent (t : Table) (resourceType id : String) :
    Except FhirError FHIRRes :=
  getResource resourceType id (.ok (getItem t (resourceType, id) 1))

/-- `updateResource` from the source: validate, read the `v1` row to
obtain the current version, stamp the payload with version + 1, put a new
row under the sort key of the new version, then `UpdateCommand` the `v1`
row to mirror the new resource, timestamp and version. -/
def updateResource (t : Table) (now : Nat) (resourceType id : String)
    (p : Payload) : Except FhirError (FHIRRes × Table) :=
  if ¬ validateResourceType resourceType then
    .error (.unsupportedType resourceType)
  else if id = "" then
    .error .invalidId
  else if kindMismatch p resourceType then
    .error (.typeMismatch resourceType (p.resourceType.getD ""))
  else
    let pk := (resourceType, id)
    match getItem t pk 1 with
    | none => .error (.notFound resourceType id)
    | some existingResource =>
      let rwm := addMetadata
        { p with resourceType := some resourceType, id := some id }
        true (some existingResource.versionId) now
      let histItem : Item :=
        { PK := pk
          SK := rwm.meta.versionId
          resourceType := resourceType
          resourceId := id
          lastUpdated := rwm.meta.lastUpdated
          versionId := rwm.meta.versionId
          resource := rwm
          gsi1PK := resourceType
          gsi1SK := (.updated, rwm.meta.lastUpdated)
          gsi2PK :=
            if resourceType = "Patient" then id
            else ownerOf p.subjectRef
          gsi2SK := (resourceType, id)
          deleted := none }
      let t1 := putItem t histItem
      let t2 := updatePointer t1 pk rwm rwm.meta.versionId rwm.meta.lastUpdated
      .ok (rwm, t2)

/-- `deleteResource` from the source: validate, read the `v1` row, then
put back the same item (same sort key, so the current row is overwritten
in place) with `_deleted: true` inside the resource, a `deleted: true`
attribute, a fresh timestamp and version + 1. -/
def deleteResource (t : Table) (now : Nat) (resourceType id : String) :
    Except FhirError Table :=
  if ¬ validateResourceType resourceType then
    .error (.unsupportedType resourceType)
  else if id = "" then
    .error .invalidId
  else
    let pk := (resourceType, id)
    match getItem t pk 1 with
    | none => .error (.notFound resourceType id)
    | some item =>
      let deletedRes : FHIRRes :=
        { item.resource with
            meta :=
              { item.resource.meta with
                  lastUpdated := now
                  versionId := item.versionId + 1 }
            deletedMarker := true }
      let deletedItem : Item :=
        { item with
            resource := deletedRes
            lastUpdated := now
            versionId := item.versionId + 1
            deleted := some true }
      .ok (putItem t deletedItem)

/-- The query parameters `searchResources` reads from its
`Record<string, any>` argument: `_count`, `_offset`, `_lastUpdated` and
`subject`.  `includeDeleted` models an extra key of the record; the code
never reads it, so it is carried here only to express claims about it. -/
structure SearchParams where
  count : Option Nat
  offset : Option Nat
  lastUpdated : Option String
  subject : Option String
  includeDeleted : Bool
deriving DecidableEq

/-- `parseInt(searchParams._count) || 20`: absent (or non-numeric, which
the model folds into `none`) and `0` both fall back to the default page
size 20. -/
def effectiveCount (count : Option Nat) : Nat :=
  match count with
  | some n => if n = 0 then 20 else n
  | none => 20

/-- Removal of the first occurrence of a pattern from a character list,
as structural recursion. -/
def replaceFirstAux (pat : List Char) (l : List Char) : List Char :=
  match l with
  | [] => []
  | c :: rest =>
    if pat.isPrefixOf (c :: rest) then (c :: rest).drop pat.length
    else c :: replaceFirstAux pat rest

/-- JavaScript `s.replace('Patient/', '')`: removes the first occurrence
of the pattern only. -/
def replaceFirst (s pat : String) : String :=
  String.mk (replaceFirstAux pat.toList s.toList)

/-- The filter expression
`attribute_not_exists(deleted) OR deleted = :deleted` with
`:deleted = false`. -/
def itemNotDeleted (it : Item) : Bool :=
  match it.deleted with
  | some true => false
  | _ => true

/-- Descending order on GSI1 sort keys, as produced by the query with
`ScanIndexForward: false`. -/
def gsi1Desc (x y : Item) : Prop := gsiKeyLe y.gsi1SK x.gsi1SK

instance : DecidableRel gsi1Desc := fun x y => by
  unfold gsi1Desc; infer_instance

instance : IsTotal Item gsi1Desc :=
  ⟨fun x y => by unfold gsi1Desc gsiKeyLe; omega⟩

instance : IsTrans Item gsi1Desc :=
  ⟨fun x y z => by unfold gsi1Desc gsiKeyLe; omega⟩

/-- Descending order on GSI2 sort keys (modelled `RESOURCE#<rt>#<id>`
strings, compared lexicographically by components). -/
def gsi2Desc (x y : Item) : Prop :=
  y.gsi2SK.1 < x.gsi2SK.1 ∨ (y.gsi2SK.1 = x.gsi2SK.1 ∧ y.gsi2SK.2 ≤ x.gsi2SK.2)

instance : DecidableRel gsi2Desc := fun x y => by
  unfold gsi2Desc; infer_instance

/-- The GSI1 query issued by search: key condition on the GSI1 partition
key (plus, when `_lastUpdated` is passed, `begins_with(GSI1SK, 'CREATED')`),
items ordered by sort key descending, `Limit` applied before the filter
expression, which then drops tombstoned rows. -/
def queryGSI1 (t : Table) (typeKey : String) (beginsCreated : Bool)
    (limit : Nat) : List Item :=
  let matching := t.filter fun it =>
    it.gsi1PK == typeKey && (!beginsCreated || it.gsi1SK.1 == GsiMark.created)
  ((matching.insertionSort gsi1Desc).take limit).filter itemNotDeleted

/-- The GSI2 query issued by the owner-filtered search path: key condition
on the GSI2 partition key, same limit and tombstone filter. -/
def queryGSI2 (t : Table) (patientKey : String) (limit : Nat) : List Item :=
  let matching := t.filter fun it => it.gsi2PK == patientKey
  ((matching.insertionSort gsi2Desc).take limit).filter itemNotDeleted

/-- One entry of the returned search bundle. -/
structure BundleEntry where
  resource : FHIRRes
  fullUrl : String
deriving DecidableEq

/-- The `searchset` bundle assembled by `searchResources`.  `total` is the
post-filter item count reported by the query. -/
structure FHIRBundle where
  id : String
  total : Nat
  entry : List BundleEntry
deriving DecidableEq

/-- Bundle assembly: one entry per returned item, with the convenience
`fullUrl` string `<resourceType>/<resource.id>` (an absent id renders as
`"undefined"`, as in the template literal). -/
def mkBundle (bundleId resourceType : String) (items : List Item) :
    FHIRBundle :=
  { id := bundleId
    total := items.length
    entry := items.map fun it =>
      { resource := it.resource
        fullUrl := resourceType ++ "/" ++ (it.resource.id.getD "undefined") } }

/-- `searchResources` from the source: validate the type, compute the page
size, then either the owner-filtered GSI2 query (when a truthy `subject`
is passed and the kind is not Patient, with
`searchParams.subject.replace('Patient/', '')` as the bucket) or the
kind-wide GSI1 query.  `_offset` is parsed but never used.  The
`includeDeleted` key is never read. -/
def searchResources (t : Table) (bundleId resourceType : String)
    (sp : SearchParams) : Except FhirError FHIRBundle :=
  if ¬ validateResourceType resourceType then
    .error (.unsupportedType resourceType)
  else
    let count := effectiveCount sp.count
    if jsTruthy sp.subject ∧ resourceType ≠ "Patient" then
      let patientId := replaceFirst (sp.subject.getD "") "Patient/"
      .ok (mkBundle bundleId resourceType (queryGSI2 t patientId count))
    else
      .ok (mkBundle bundleId resourceType
        (queryGSI1 t resourceType (jsTruthy sp.lastUpdated) count))

/-- One store operation, with its clock reading and, for create, the
fresh uuid the id generator would supply. -/
inductive Op where
  | create (now : Nat) (freshId : String) (resourceType : String) (p : Payload)
  | update (now : Nat) (resourceType id : String) (p : Payload)
  | del (now : Nat) (resourceType id : String)

/-- Effect of one operation on the table; a thrown error leaves the table
as it was (every error in the source is raised before any write, and the
conditional insert of create is rejected atomically by the backend). -/
def applyOp (t : Table) : Op → Table
  | .create now freshId resourceType p =>
    match createResource t now freshId resourceType p with
    | .ok (_, t') => t'
    | .error _ => t
  | .update now resourceType id p =>
    match updateResource t now resourceType id p with
    | .ok (_, t') => t'
    | .error _ => t
  | .del now resourceType id =>
    match deleteResource t now resourceType id with
    | .ok t' => t'
    | .error _ => t

/-- The table produced by a sequence of operations on an empty store. -/
def runOps (ops : List Op) : Table := ops.foldl applyOp []

/-! ### Basic lemmas about the table primitives -/

theorem runOps_append (ops : List Op) (op : Op) :
    runOps (ops ++ [op]) = applyOp (runOps ops) op := by
  simp [runOps, List.foldl_append]

theorem getItem_key {t : Table} {pk : String × String} {sk : Nat} {it : Item}
    (h : getItem t pk sk = some it) : it.PK = pk ∧ it.SK = sk := by
  have := List.find?_some h
  simpa using this

theorem getItem_mem {t : Table} {pk : String × String} {sk : Nat} {it : Item}
    (h : getItem t pk sk = some it) : it ∈ t :=
  List.mem_of_find?_eq_some h

theorem getItem_append (t₁ t₂ : Table) (pk : String × String) (sk : Nat) :
    getItem (t₁ ++ t₂) pk sk = (getItem t₁ pk sk).or (getItem t₂ pk sk) := by
  unfold getItem
  exact List.find?_append

theorem getItem_singleton (x : Item) (pk : String × String) (sk : Nat) :
    getItem [x] pk sk =
      if x.PK = pk ∧ x.SK = sk then some x else none := by
  unfold getItem
  simp only [List.find?]
  split
  · rename_i h
    rw [if_pos (of_decide_eq_true h)]
  · rename_i h
    rw [if_neg]
    exact of_decide_eq_false h

theorem getItem_map_keyPres (t : Table) (f : Item → Item)
    (hf : ∀ it, (f it).PK = it.PK ∧ (f it).SK = it.SK)
    (pk : String × String) (sk : Nat) :
    getItem (t.map f) pk sk = (getItem t pk sk).map f := by
  unfold getItem
  rw [List.find?_map]
  have hp : ((fun it : Item => decide (it.PK = pk ∧ it.SK = sk)) ∘ f) =
      (fun it : Item => decide (it.PK = pk ∧ it.SK = sk)) := by
    funext it
    simp [Function.comp, (hf it).1, (hf it).2]
  rw [hp]

theorem putItem_keyPres (x it : Item) :
    ((if it.PK = x.PK ∧ it.SK = x.SK then x else it).PK = it.PK ∧
      (if it.PK = x.PK ∧ it.SK = x.SK then x else it).SK = it.SK) := by
  split <;> simp_all

theorem getItem_putItem_self (t : Table) (x : Item) :
    getItem (putItem t x) x.PK x.SK = some x := by
  unfold putItem
  cases h : getItem t x.PK x.SK with
  | none =>
    rw [getItem_append, h, Option.none_or, getItem_singleton, if_pos ⟨rfl, rfl⟩]
  | some y =>
    rw [getItem_map_keyPres _ _ (putItem_keyPres x), h, Option.map_some']
    have hk := getItem_key h
    rw [if_pos ⟨hk.1, hk.2⟩]

theorem getItem_putItem_ne (t : Table) (x : Item) {pk : String × String}
    {sk : Nat} (h : ¬(pk = x.PK ∧ sk = x.SK)) :
    getItem (putItem t x) pk sk = getItem t pk sk := by
  unfold putItem
  cases hx : getItem t x.PK x.SK with
  | none =>
    rw [getItem_append, getItem_singleton, if_neg, Option.or_none]
    intro hc
    exact h ⟨hc.1.symm, hc.2.symm⟩
  | some y =>
    rw [getItem_map_keyPres _ _ (putItem_keyPres x)]
    cases hg : getItem t pk sk with
    | none => rfl
    | some z =>
      rw [Option.map_some']
      have hk := getItem_key hg
      rw [if_neg]
      intro hc
      exact h ⟨hk.1 ▸ hc.1, hk.2 ▸ hc.2⟩

theorem mem_putItem {y : Item} (t : Table) (x : Item) (h : y ∈ putItem t x) :
    y = x ∨ (y ∈ t ∧ ¬(y.PK = x.PK ∧ y.SK = x.SK)) := by
  unfold putItem at h
  cases hx : getItem t x.PK x.SK with
  | none =>
    rw [hx] at h
    rcases List.mem_append.mp h with h' | h'
    · right
      refine ⟨h', fun hc => ?_⟩
      have := (List.find?_eq_none.mp hx) y h'
      exact this (by simpa using hc)
    · left
      simpa using h'
  | some z =>
    rw [hx] at h
    rcases List.mem_map.mp h with ⟨w, hw, hfw⟩
    by_cases hc : w.PK = x.PK ∧ w.SK = x.SK
    · rw [if_pos hc] at hfw
      exact Or.inl hfw.symm
    · rw [if_neg hc] at hfw
      exact Or.inr (hfw ▸ ⟨hw, hc⟩)

theorem updatePointer_keyPres (pk : String × String) (r : FHIRRes)
    (vid lu : Nat) (it : Item) :
    ((if it.PK = pk ∧ it.SK = 1 then
        { it with resource := r, lastUpdated := lu, versionId := vid }
      else it).PK = it.PK ∧
      (if it.PK = pk ∧ it.SK = 1 then
        { it with resource := r, lastUpdated := lu, versionId := vid }
      else it).SK = it.SK) := by
  split <;> simp_all

theorem getItem_updatePointer_ne (t : Table) (pk : String × String)
    (r : FHIRRes) (vid lu : Nat) {pk' : String × String} {sk : Nat}
    (h : ¬(pk' = pk ∧ sk = 1)) :
    getItem (updatePointer t pk r vid lu) pk' sk = getItem t pk' sk := by
  unfold updatePointer
  rw [getItem_map_keyPres _ _ (updatePointer_keyPres pk r vid lu)]
  cases hg : getItem t pk' sk with
  | none => rfl
  | some z =>
    rw [Option.map_some']
    have hk := getItem_key hg
    rw [if_neg]
    intro hc
    exact h ⟨hk.1 ▸ hc.1, hk.2 ▸ hc.2⟩

theorem getItem_updatePointer_self (t : Table) (pk : String × String)
    (r : FHIRRes) (vid lu : Nat) {it : Item}
    (h : getItem t pk 1 = some it) :
    getItem (updatePointer t pk r vid lu) pk 1 =
      some { it with resource := r, lastUpdated := lu, versionId := vid } := by
  unfold updatePointer
  rw [getItem_map_keyPres _ _ (updatePointer_keyPres pk r vid lu), h,
    Option.map_some']
  have hk := getItem_key h
  rw [if_pos ⟨hk.1, hk.2⟩]

/-! ### Success shapes of the three writing operations -/

theorem createResource_cases (t : Table) (now : Nat)
    (freshId resourceType : String) (p : Payload) :
    (∃ e, createResource t now freshId resourceType p = .error e) ∨
    (∃ res item, item.SK = 1 ∧ item.versionId = 1 ∧
      getItem t item.PK (1 : Nat) = none ∧
      res.meta.versionId = 1 ∧ res.resourceType = some resourceType ∧
      res.id = some (jsOr p.id freshId) ∧
      item.PK = (resourceType, jsOr p.id freshId) ∧ item.resource = res ∧
      item.deleted = none ∧
      item.gsi2PK = (if resourceType = "Patient" then jsOr p.id freshId
        else ownerOf p.subjectRef) ∧
      createResource t now freshId resourceType p = .ok (res, t ++ [item])) := by
  simp only [createResource]
  split
  · exact Or.inl ⟨_, rfl⟩
  split
  · exact Or.inl ⟨_, rfl⟩
  split
  · exact Or.inl ⟨_, rfl⟩
  · rename_i hnone
    refine Or.inr ⟨_, _, ?_, ?_, ?_, ?_, ?_, ?_, ?_, ?_, ?_, ?_, rfl⟩ <;>
      first | rfl | exact hnone

theorem updateResource_cases (t : Table) (now : Nat) (resourceType id : String)
    (p : Payload) :
    (∃ e, updateResource t now resourceType id p = .error e) ∨
    (∃ cur res hist, getItem t (resourceType, id) 1 = some cur ∧
      hist.PK = (resourceType, id) ∧ hist.SK = cur.versionId + 1 ∧
      hist.versionId = cur.versionId + 1 ∧ hist.deleted = none ∧
      res.meta.versionId = cur.versionId + 1 ∧
      res.resourceType = some resourceType ∧ res.id = some id ∧
      res.meta.lastUpdated = now ∧ hist.resource = res ∧
      hist.gsi2PK = (if resourceType = "Patient" then id
        else ownerOf p.subjectRef) ∧
      updateResource t now resourceType id p =
        .ok (res, updatePointer (putItem t hist) (resourceType, id) res
          (cur.versionId + 1) now)) := by
  simp only [updateResource]
  split
  · exact Or.inl ⟨_, rfl⟩
  split
  · exact Or.inl ⟨_, rfl⟩
  split
  · exact Or.inl ⟨_, rfl⟩
  split
  · exact Or.inl ⟨_, rfl⟩
  · rename_i cur hcur
    refine Or.inr ⟨cur, _, _, ?_, ?_, ?_, ?_, ?_, ?_, ?_, ?_, ?_, ?_, ?_, rfl⟩ <;>
      first | rfl | exact hcur

theorem deleteResource_cases (t : Table) (now : Nat) (resourceType id : String) :
    (∃ e, deleteResource t now resourceType id = .error e) ∨
    (∃ cur d, getItem t (resourceType, id) 1 = some cur ∧
      d.PK = cur.PK ∧ d.SK = cur.SK ∧ d.versionId = cur.versionId + 1 ∧
      d.deleted = some true ∧ d.resource.deletedMarker = true ∧
      d.resource.meta.versionId = cur.versionId + 1 ∧
      d.resource.meta.lastUpdated = now ∧
      d.gsi1PK = cur.gsi1PK ∧ d.gsi2PK = cur.gsi2PK ∧
      deleteResource t now resourceType id = .ok (putItem t d)) := by
  simp only [deleteResource]
  split
  · exact Or.inl ⟨_, rfl⟩
  split
  · exact Or.inl ⟨_, rfl⟩
  split
  · exact Or.inl ⟨_, rfl⟩
  · rename_i cur hcur
    refine Or.inr ⟨cur, _, hcur, ?_, ?_, ?_, ?_, ?_, ?_, ?_, ?_, ?_, rfl⟩ <;> rfl

/-! ### Store invariants along runs -/

/-- Every current row carries a positive version. -/
def VersionPos (t : Table) : Prop :=
  ∀ pk it, getItem t pk 1 = some it → 1 ≤ it.versionId

/-- Every history row (sort key other than the `v1` slot) has a current
row for its identity whose version bounds the history sort key. -/
def HistOK (t : Table) : Prop :=
  ∀ pk sk it, getItem t pk sk = some it → sk ≠ 1 →
    ∃ cur, getItem t pk 1 = some cur ∧ sk ≤ cur.versionId

/-- The store invariant maintained by every operation. -/
def StoreInv (t : Table) : Prop := VersionPos t ∧ HistOK t

theorem storeInv_nil : StoreInv [] := by
  constructor
  · intro pk it h
    simp [getItem, List.find?] at h
  · intro pk sk it h
    simp [getItem, List.find?] at h

theorem storeInv_append_create (t : Table) (item : Item) (h1 : item.SK = 1)
    (h2 : item.versionId = 1) (_h3 : getItem t item.PK 1 = none)
    (hinv : StoreInv t) : StoreInv (t ++ [item]) := by
  constructor
  · intro pk it' h
    rw [getItem_append] at h
    cases ht : getItem t pk 1 with
    | some y =>
      rw [ht] at h
      cases h
      exact hinv.1 pk _ ht
    | none =>
      rw [ht, Option.none_or, getItem_singleton] at h
      split at h
      · cases h
        omega
      · cases h
  · intro pk sk it' h hsk
    rw [getItem_append] at h
    cases ht : getItem t pk sk with
    | some y =>
      rw [ht] at h
      cases h
      obtain ⟨cur, hcur, hb⟩ := hinv.2 pk sk _ ht hsk
      refine ⟨cur, ?_, hb⟩
      rw [getItem_append, hcur]
      rfl
    | none =>
      rw [ht, Option.none_or, getItem_singleton] at h
      split at h
      · rename_i hkey
        cases h
        exact absurd (hkey.2 ▸ h1) hsk
      · cases h

theorem storeInv_update_shape (t : Table) (pk : String × String)
    (cur hist : Item) (r : FHIRRes) (lu : Nat)
    (hcur : getItem t pk 1 = some cur) (hPK : hist.PK = pk)
    (hSK : hist.SK = cur.versionId + 1)
    (hvid : hist.versionId = cur.versionId + 1) (hinv : StoreInv t) :
    StoreInv (updatePointer (putItem t hist) pk r (cur.versionId + 1) lu) := by
  have hv : 1 ≤ cur.versionId := hinv.1 pk cur hcur
  have hne1 : ¬((pk = hist.PK ∧ (1 : Nat) = hist.SK)) := by
    rw [hSK]
    omega
  have hA : getItem (putItem t hist) pk 1 = some cur := by
    rw [getItem_putItem_ne t hist hne1]
    exact hcur
  have hB := getItem_updatePointer_self (putItem t hist) pk r
    (cur.versionId + 1) lu hA
  have hC : ∀ pk' sk, ¬(pk' = pk ∧ sk = 1) → ¬(pk' = pk ∧ sk = cur.versionId + 1) →
      getItem (updatePointer (putItem t hist) pk r (cur.versionId + 1) lu) pk' sk
        = getItem t pk' sk := by
    intro pk' sk hne hne'
    rw [getItem_updatePointer_ne _ _ _ _ _ hne,
      getItem_putItem_ne t hist (by rw [hPK, hSK]; exact hne')]
  have hD : getItem (updatePointer (putItem t hist) pk r (cur.versionId + 1) lu)
      pk (cur.versionId + 1) = some hist := by
    rw [getItem_updatePointer_ne _ _ _ _ _ (by omega)]
    have := getItem_putItem_self t hist
    rw [hPK, hSK] at this
    exact this
  constructor
  · intro pk' it' h
    by_cases hpk : pk' = pk
    · subst hpk
      rw [hB] at h
      cases h
      show 1 ≤ cur.versionId + 1
      omega
    · rw [hC pk' 1 (fun hc => hpk hc.1) (by omega)] at h
      exact hinv.1 pk' it' h
  · intro pk' sk it' h hsk
    by_cases hpk : pk' = pk
    · subst hpk
      by_cases hv' : sk = cur.versionId + 1
      · subst hv'
        refine ⟨_, hB, ?_⟩
        show cur.versionId + 1 ≤ cur.versionId + 1
        omega
      · rw [hC _ sk (fun hc => hsk hc.2) (fun hc => hv' hc.2)] at h
        obtain ⟨cur', hcur', hb⟩ := hinv.2 _ sk it' h hsk
        rw [hcur] at hcur'
        cases hcur'
        refine ⟨_, hB, ?_⟩
        show sk ≤ cur.versionId + 1
        omega
    · rw [hC pk' sk (fun hc => hpk hc.1) (fun hc => hpk hc.1)] at h
      obtain ⟨cur', hcur', hb⟩ := hinv.2 pk' sk it' h hsk
      refine ⟨cur', ?_, hb⟩
      rw [hC pk' 1 (fun hc => hpk hc.1) (fun hc => hpk hc.1)]
      exact hcur'

theorem storeInv_delete_shape (t : Table) (pk : String × String)
    (cur d : Item) (hcur : getItem t pk 1 = some cur) (hPK : d.PK = cur.PK)
    (hSK : d.SK = cur.SK) (hvid : d.versionId = cur.versionId + 1)
    (hinv : StoreInv t) : StoreInv (putItem t d) := by
  obtain ⟨hcPK, hcSK⟩ := getItem_key hcur
  have hdPK : d.PK = pk := hPK.trans hcPK
  have hdSK : d.SK = 1 := hSK.trans hcSK
  have hA : getItem (putItem t d) pk 1 = some d := by
    have := getItem_putItem_self t d
    rw [hdPK, hdSK] at this
    exact this
  have hC : ∀ pk' sk, ¬(pk' = pk ∧ sk = 1) →
      getItem (putItem t d) pk' sk = getItem t pk' sk := by
    intro pk' sk hne
    exact getItem_putItem_ne t d (by rw [hdPK, hdSK]; exact hne)
  constructor
  · intro pk' it' h
    by_cases hpk : pk' = pk
    · subst hpk
      rw [hA] at h
      cases h
      omega
    · rw [hC pk' 1 (fun hc => hpk hc.1)] at h
      exact hinv.1 pk' it' h
  · intro pk' sk it' h hsk
    rw [hC pk' sk (fun hc => hsk hc.2)] at h
    obtain ⟨cur', hcur', hb⟩ := hinv.2 pk' sk it' h hsk
    by_cases hpk : pk' = pk
    · subst hpk
      rw [hcur] at hcur'
      cases hcur'
      exact ⟨d, hA, by omega⟩
    · refine ⟨cur', ?_, hb⟩
      rw [hC pk' 1 (fun hc => hpk hc.1)]
      exact hcur'

theorem storeInv_applyOp (t : Table) (op : Op) (hinv : StoreInv t) :
    StoreInv (applyOp t op) := by
  cases op with
  | create now freshId resourceType p =>
    rcases createResource_cases t now freshId resourceType p with
      ⟨e, he⟩ | ⟨res, item, h1, h2, h3, _, _, _, _, _, _, _, he⟩
    · simpa [applyOp, he] using hinv
    · have : applyOp t (.create now freshId resourceType p) = t ++ [item] := by
        simp [applyOp, he]
      rw [this]
      exact storeInv_append_create t item h1 h2 h3 hinv
  | update now resourceType id p =>
    rcases updateResource_cases t now resourceType id p with
      ⟨e, he⟩ | ⟨cur, res, hist, hcur, hPK, hSK, hvid, _, _, _, _, _, _, _, he⟩
    · simpa [applyOp, he] using hinv
    · have : applyOp t (.update now resourceType id p) =
          updatePointer (putItem t hist) (resourceType, id) res
            (cur.versionId + 1) now := by
        simp [applyOp, he]
      rw [this]
      exact storeInv_update_shape t _ cur hist res now hcur hPK hSK hvid hinv
  | del now resourceType id =>
    rcases deleteResource_cases t now resourceType id with
      ⟨e, he⟩ | ⟨cur, d, hcur, hPK, hSK, hvid, _, _, _, _, _, _, he⟩
    · simpa [applyOp, he] using hinv
    · have : applyOp t (.del now resourceType id) = putItem t d := by
        simp [applyOp, he]
      rw [this]
      exact storeInv_delete_shape t _ cur d hcur hPK hSK hvid hinv

theorem storeInv_runOps (ops : List Op) : StoreInv (runOps ops) := by
  suffices h : ∀ (l : List Op) (t : Table), StoreInv t →
      StoreInv (l.foldl applyOp t) by
    exact h ops [] storeInv_nil
  intro l
  induction l with
  | nil => intro t h; exact h
  | cons op l ih =>
    intro t h
    exact ih (applyOp t op) (storeInv_applyOp t op h)

/-- History rows are untouched by any further operation: on a table
satisfying the store invariant, an item stored under a sort key other
than the `v1` slot is still stored unchanged after any operation. -/
theorem getItem_hist_applyOp (t : Table) (op : Op) (pk : String × String)
    (sk : Nat) (it : Item) (hinv : StoreInv t) (hsk : sk ≠ 1)
    (h : getItem t pk sk = some it) :
    getItem (applyOp t op) pk sk = some it := by
  cases op with
  | create now freshId resourceType p =>
    rcases createResource_cases t now freshId resourceType p with
      ⟨e, he⟩ | ⟨res, item, h1, h2, h3, _, _, _, _, _, _, _, he⟩
    · simpa [applyOp, he] using h
    · have : applyOp t (.create now freshId resourceType p) = t ++ [item] := by
        simp [applyOp, he]
      rw [this, getItem_append, h]
      rfl
  | update now resourceType id p =>
    rcases updateResource_cases t now resourceType id p with
      ⟨e, he⟩ | ⟨cur, res, hist, hcur, hPK, hSK, hvid, _, _, _, _, _, _, _, he⟩
    · simpa [applyOp, he] using h
    · have heq : applyOp t (.update now resourceType id p) =
          updatePointer (putItem t hist) (resourceType, id) res
            (cur.versionId + 1) now := by
        simp [applyOp, he]
      rw [heq, getItem_updatePointer_ne _ _ _ _ _ (fun hc => hsk hc.2),
        getItem_putItem_ne t hist ?_]
      · exact h
      · rw [hPK, hSK]
        rintro ⟨hc1, hc2⟩
        obtain ⟨cur', hcur', hb⟩ := hinv.2 pk sk it h hsk
        rw [hc1, hcur] at hcur'
        cases hcur'
        omega
  | del now resourceType id =>
    rcases deleteResource_cases t now resourceType id with
      ⟨e, he⟩ | ⟨cur, d, hcur, hPK, hSK, hvid, _, _, _, _, _, _, he⟩
    · simpa [applyOp, he] using h
    · have heq : applyOp t (.del now resourceType id) = putItem t d := by
        simp [applyOp, he]
      obtain ⟨hcPK, hcSK⟩ := getItem_key hcur
      rw [heq, getItem_putItem_ne t d ?_]
      · exact h
      · rw [hPK.trans hcPK, hSK.trans hcSK]
        exact fun hc => hsk hc.2

/-! ### Lemmas about the two index queries -/

theorem mem_queryGSI1 {t : Table} {typeKey : String} {flag : Bool}
    {limit : Nat} {it : Item} (h : it ∈ queryGSI1 t typeKey flag limit) :
    it ∈ t ∧ itemNotDeleted it = true ∧ it.gsi1PK = typeKey := by
  unfold queryGSI1 at h
  obtain ⟨h1, h2⟩ := List.mem_filter.mp h
  have h3 := List.mem_of_mem_take h1
  have h4 := (List.mem_insertionSort gsi1Desc).mp h3
  obtain ⟨h5, h6⟩ := List.mem_filter.mp h4
  refine ⟨h5, h2, ?_⟩
  have := (Bool.and_eq_true _ _).mp h6
  exact beq_iff_eq.mp this.1

theorem mem_queryGSI2 {t : Table} {patientKey : String} {limit : Nat}
    {it : Item} (h : it ∈ queryGSI2 t patientKey limit) :
    it ∈ t ∧ itemNotDeleted it = true ∧ it.gsi2PK = patientKey := by
  unfold queryGSI2 at h
  obtain ⟨h1, h2⟩ := List.mem_filter.mp h
  have h3 := List.mem_of_mem_take h1
  have h4 := (List.mem_insertionSort gsi2Desc).mp h3
  obtain ⟨h5, h6⟩ := List.mem_filter.mp h4
  exact ⟨h5, h2, beq_iff_eq.mp h6⟩

theorem queryGSI1_length (t : Table) (typeKey : String) (flag : Bool)
    (limit : Nat) : (queryGSI1 t typeKey flag limit).length ≤ limit := by
  unfold queryGSI1
  calc (((List.insertionSort gsi1Desc _).take limit).filter
          itemNotDeleted).length
      ≤ ((List.insertionSort gsi1Desc _).take limit).length :=
        List.length_filter_le _ _
    _ ≤ limit := by
        rw [List.length_take]
        omega

theorem queryGSI1_sorted (t : Table) (typeKey : String) (flag : Bool)
    (limit : Nat) : (queryGSI1 t typeKey flag limit).Sorted gsi1Desc := by
  unfold queryGSI1
  have hs := List.sorted_insertionSort gsi1Desc
    (t.filter fun it =>
      it.gsi1PK == typeKey && (!flag || it.gsi1SK.1 == GsiMark.created))
  have hsub : List.Sublist
      (((List.insertionSort gsi1Desc _).take limit).filter itemNotDeleted)
      (List.insertionSort gsi1Desc
        (t.filter fun it =>
          it.gsi1PK == typeKey && (!flag || it.gsi1SK.1 == GsiMark.created))) :=
    List.Sublist.trans (List.filter_sublist _) (List.take_sublist _ _)
  exact List.Pairwise.sublist hsub hs

/-! ### Concrete scenarios used to settle the claims -/

/-- A payload for `Patient/p1` with body A. -/
def payloadA : Payload :=
  { resourceType := none, id := some "p1", metaProfile := none,
    subjectRef := none, deletedMarker := false, body := "A" }

/-- A payload for `Patient/p1` with body B. -/
def payloadB : Payload :=
  { resourceType := none, id := some "p1", metaProfile := none,
    subjectRef := none, deletedMarker := false, body := "B" }

/-- A payload for `Patient/a`. -/
def payloadPa : Payload :=
  { resourceType := none, id := some "a", metaProfile := none,
    subjectRef := none, deletedMarker := false, body := "A1" }

/-- A payload for `Patient/b`. -/
def payloadPb : Payload :=
  { resourceType := none, id := some "b", metaProfile := none,
    subjectRef := none, deletedMarker := false, body := "B1" }

/-- An Observation payload owned by `Patient/alice`. -/
def payloadObsOwned : Payload :=
  { resourceType := none, id := some "o1", metaProfile := none,
    subjectRef := some "Patient/alice", deletedMarker := false, body := "O1" }

/-- An Observation payload without a `subject.reference`. -/
def payloadObsOwnerless : Payload :=
  { resourceType := none, id := some "o1", metaProfile := none,
    subjectRef := none, deletedMarker := false, body := "O2" }

/-- Search with no parameters supplied. -/
def defaultSearch : SearchParams :=
  { count := none, offset := none, lastUpdated := none, subject := none,
    includeDeleted := false }

/-- Create `Patient/p1` then update it. -/
def opsCreateUpdate : List Op :=
  [.create 0 "g1" "Patient" payloadA, .update 1 "Patient" "p1" payloadB]

/-- Create `Patient/p1` then delete it. -/
def opsCreateDelete : List Op :=
  [.create 0 "g1" "Patient" payloadA, .del 1 "Patient" "p1"]

/-- Create `Patient/p1`, delete it, then update it again. -/
def opsCreateDeleteUpdate : List Op :=
  [.create 0 "g1" "Patient" payloadA, .del 1 "Patient" "p1",
    .update 2 "Patient" "p1" payloadB]

/-- Create `Patient/p1`, update it, then delete it. -/
def opsCreateUpdateDelete : List Op :=
  [.create 0 "g1" "Patient" payloadA, .update 1 "Patient" "p1" payloadB,
    .del 2 "Patient" "p1"]

/-- Create `Patient/a`, update it, then create `Patient/b`. -/
def opsInterleaved : List Op :=
  [.create 0 "g1" "Patient" payloadPa, .update 1 "Patient" "a" payloadPa,
    .create 2 "g1" "Patient" payloadPb]

/-- Create an owned Observation, then update it without an owner. -/
def opsObsOwnerChange : List Op :=
  [.create 0 "g1" "Observation" payloadObsOwned,
    .update 1 "Observation" "o1" payloadObsOwnerless]

/-- The history row written by the update of `opsCreateUpdate`. -/
def histRowEx : Item :=
  { PK := ("Patient", "p1")
    SK := 2
    resourceType := "Patient"
    resourceId := "p1"
    lastUpdated := 1
    versionId := 2
    resource :=
      { resourceType := some "Patient"
        id := some "p1"
        meta :=
          { versionId := 2
            lastUpdated := 1
            profile := ["http://hl7.org/fhir/StructureDefinition/Patient"] }
        subjectRef := none
        deletedMarker := false
        body := "B" }
    gsi1PK := "Patient"
    gsi1SK := (.updated, 1)
    gsi2PK := "p1"
    gsi2SK := ("Patient", "p1")
    deleted := none }

/-- A current row that is tombstoned with a positive version, as every
stored tombstone is: the item-level `deleted` attribute is `true`. -/
def rowTombstoned (t : Table) (pk : String × String) : Bool :=
  match getItem t pk 1 with
  | some cur => decide (cur.deleted = some true) && decide (1 ≤ cur.versionId)
  | none => false

/-! ### Claim C1 -/

/-- C1 counterexample: create writes version 1 with body A, but after one
update both stored rows (the overwritten `v1` current row and the `v2`
history row) carry version 2 and body B: no row with the version-1
content is retained, so the history is not append-only in the claimed
sense. -/
theorem c1_version1_content_not_retained :
    ((createResource [] 0 "g1" "Patient" payloadA).toOption.map
      (fun rt => (rt.1.meta.versionId, rt.1.body)) = some (1, "A")) ∧
    (runOps opsCreateUpdate).map
      (fun it => (it.SK, it.versionId, it.resource.body)) =
      [(1, 2, "B"), (2, 2, "B")] := by
  decide

/-- C1 (amended): the `v1` slot doubles as the current row and is
overwritten in place by update and delete, so the original version-1
content is not retained after the first update and a delete writes no
separate history row; however every history row (sort key other than the
`v1` slot) is immutable once written: any further operation leaves it
unchanged. -/
theorem c1_history_rows_immutable (ops : List Op) (op : Op)
    (pk : String × String) (sk : Nat) (it : Item) (hsk : sk ≠ 1)
    (h : getItem (runOps ops) pk sk = some it) :
    getItem (runOps (ops ++ [op])) pk sk = some it := by
  rw [runOps_append]
  exact getItem_hist_applyOp _ op pk sk it (storeInv_runOps ops) hsk h

/-- C1 amended claim witnessed on the create-update run followed by a
delete: the `v2` history row survives unchanged. -/
theorem c1_history_rows_immutable_witness :
    (2 : Nat) ≠ 1 ∧
    getItem (runOps opsCreateUpdate) ("Patient", "p1") 2 = some histRowEx ∧
    getItem (runOps (opsCreateUpdate ++ [.del 5 "Patient" "p1"]))
      ("Patient", "p1") 2 = some histRowEx :=
  ⟨by decide, by decide,
    c1_history_rows_immutable opsCreateUpdate (.del 5 "Patient" "p1")
      ("Patient", "p1") 2 histRowEx (by decide) (by decide)⟩

/-! ### Claim C6 -/

/-- C6 counterexample: after create and delete the read returns the
tombstone, but an update applied to the tombstoned identity replaces the
stored resource with one whose `_deleted` marker is gone, so the resource
returned by read no longer carries a deletion marker. -/
theorem c6_update_clears_resource_deletion_marker :
    ((readCurrent (runOps opsCreateDelete) "Patient" "p1").toOption.map
      (fun r => r.deletedMarker) = some true) ∧
    ((readCurrent (runOps opsCreateDeleteUpdate) "Patient" "p1").toOption.map
      (fun r => (r.deletedMarker, r.meta.versionId)) = some (false, 3)) := by
  decide

/-- C6 (amended): the item-level `deleted` attribute of a current row
never transitions back: once a current row is tombstoned, it stays
tombstoned under every further operation (create is rejected, delete
re-tombstones, and the update command only rewrites the `resource`,
`lastUpdated` and `versionId` attributes); only the resource-level
`_deleted` marker inside the stored resource is lost when a tombstoned
identity is updated. -/
theorem c6_row_deleted_flag_never_cleared (t : Table) (op : Op)
    (pk : String × String) (h : rowTombstoned t pk = true) :
    rowTombstoned (applyOp t op) pk = true := by
  unfold rowTombstoned at h
  rcases hcur : getItem t pk 1 with _ | cur
  · rw [hcur] at h
    cases h
  rw [hcur] at h
  obtain ⟨hd, hv⟩ := (Bool.and_eq_true _ _).mp h
  replace hd : cur.deleted = some true := of_decide_eq_true hd
  replace hv : 1 ≤ cur.versionId := of_decide_eq_true hv
  cases op with
  | create now freshId resourceType p =>
    rcases createResource_cases t now freshId resourceType p with
      ⟨e, he⟩ | ⟨res, item, h1, h2, h3, _, _, _, _, _, _, _, he⟩
    · simpa [applyOp, he, rowTombstoned, hcur] using h
    · have heq : applyOp t (.create now freshId resourceType p) =
          t ++ [item] := by
        simp [applyOp, he]
      by_cases hpk : pk = item.PK
      · rw [← hpk, hcur] at h3
        cases h3
      · rw [heq]
        unfold rowTombstoned
        rw [getItem_append, hcur]
        show (decide (cur.deleted = some true) &&
          decide (1 ≤ cur.versionId)) = true
        simp [hd, hv]
  | update now resourceType id p =>
    rcases updateResource_cases t now resourceType id p with
      ⟨e, he⟩ | ⟨cur2, res, hist, hcur2, hPK, hSK, hvid, _, _, _, _, _, _, _, he⟩
    · simpa [applyOp, he, rowTombstoned, hcur] using h
    · have heq : applyOp t (.update now resourceType id p) =
          updatePointer (putItem t hist) (resourceType, id) res
            (cur2.versionId + 1) now := by
        simp [applyOp, he]
      rw [heq]
      unfold rowTombstoned
      by_cases hpk : pk = (resourceType, id)
      · rw [hpk] at hcur
        rw [hcur] at hcur2
        cases hcur2
        have hne1 : ¬((resourceType, id) = hist.PK ∧ (1 : Nat) = hist.SK) := by
          rw [hSK]
          omega
        have hA : getItem (putItem t hist) (resourceType, id) 1 = some cur := by
          rw [getItem_putItem_ne t hist hne1]
          exact hcur
        rw [hpk, getItem_updatePointer_self (putItem t hist) (resourceType, id)
          res (cur.versionId + 1) now hA]
        show (decide (cur.deleted = some true) &&
          decide (1 ≤ cur.versionId + 1)) = true
        simp [hd]
      · rw [getItem_updatePointer_ne _ _ _ _ _ (fun hc => hpk hc.1),
          getItem_putItem_ne t hist (fun hc => hpk (hc.1.trans hPK)),
          hcur]
        show (decide (cur.deleted = some true) &&
          decide (1 ≤ cur.versionId)) = true
        simp [hd, hv]
  | del now resourceType id =>
    rcases deleteResource_cases t now resourceType id with
      ⟨e, he⟩ | ⟨cur3, d, hcur3, hPK, hSK, hvid, hdel, _, _, _, _, _, he⟩
    · simpa [applyOp, he, rowTombstoned, hcur] using h
    · have heq : applyOp t (.del now resourceType id) = putItem t d := by
        simp [applyOp, he]
      rw [heq]
      unfold rowTombstoned
      obtain ⟨hcPK, hcSK⟩ := getItem_key hcur3
      by_cases hpk : pk = (resourceType, id)
      · subst hpk
        have hself := getItem_putItem_self t d
        rw [hPK.trans hcPK, hSK.trans hcSK] at hself
        rw [hself]
        show (decide (d.deleted = some true) &&
          decide (1 ≤ d.versionId)) = true
        simp [hdel, hvid]
      · rw [getItem_putItem_ne t d
          (fun hc => hpk (hc.1.trans (hPK.trans hcPK))), hcur]
        show (decide (cur.deleted = some true) &&
          decide (1 ≤ cur.versionId)) = true
        simp [hd, hv]

/-- C6 amended claim witnessed: the tombstoned row of the create-delete
run stays tombstoned under a further update. -/
theorem c6_row_deleted_flag_never_cleared_witness :
    rowTombstoned (runOps opsCreateDelete) ("Patient", "p1") = true ∧
    rowTombstoned
      (applyOp (runOps opsCreateDelete) (.update 2 "Patient" "p1" payloadB))
      ("Patient", "p1") = true :=
  ⟨by decide,
    c6_row_deleted_flag_never_cleared (runOps opsCreateDelete)
      (.update 2 "Patient" "p1" payloadB) ("Patient", "p1") (by decide)⟩

/-! ### Claim C2 -/

/-- C2: on an existing identity with current version v, update succeeds
with version v + 1, a subsequent read returns version v + 1, and create
stamps version 1 on a fresh identity, so the versions of an identity form
the gap-free sequence 1, 2, 3, ... -/
theorem c2_update_increments_version_and_read_agrees (t : Table) (now : Nat)
    (resourceType id : String) (p : Payload) (v : Nat)
    (hrt : validateResourceType resourceType = true) (hid : id ≠ "")
    (hmis : kindMismatch p resourceType = false)
    (hcur : (getItem t (resourceType, id) 1).map (fun it => it.versionId) =
      some v) :
    (∃ res t', updateResource t now resourceType id p = .ok (res, t') ∧
      res.meta.versionId = v + 1 ∧
      (readCurrent t' resourceType id).toOption.map
        (fun r => r.meta.versionId) = some (v + 1)) ∧
    (∀ t₀ now₀ freshId res₀ t₀',
      createResource t₀ now₀ freshId resourceType p = .ok (res₀, t₀') →
      res₀.meta.versionId = 1) := by
  obtain ⟨cur, hcurEq, hvEq⟩ := Option.map_eq_some'.mp hcur
  subst hvEq
  constructor
  · rcases updateResource_cases t now resourceType id p with
      ⟨e, he⟩ | ⟨cur2, res, hist, hcur2, hPK, hSK, hvid, hdel, hresv, hres2,
        hres3, hres4, hhist2, hhist3, he⟩
    · simp [updateResource, hrt, hid, hmis, hcurEq] at he
    · rw [hcurEq] at hcur2
      cases hcur2
      refine ⟨res, _, he, hresv, ?_⟩
      have hread : ∃ itc, getItem (updatePointer (putItem t hist)
          (resourceType, id) res (cur.versionId + 1) now)
          (resourceType, id) 1 = some itc ∧ itc.resource = res := by
        by_cases hv0 : cur.versionId = 0
        · have hself := getItem_putItem_self t hist
          rw [hPK, hSK, hv0] at hself
          exact ⟨_, getItem_updatePointer_self (putItem t hist)
            (resourceType, id) res (cur.versionId + 1) now hself, rfl⟩
        · have hA : getItem (putItem t hist) (resourceType, id) 1 =
              some cur := by
            rw [getItem_putItem_ne t hist ?_]
            · exact hcurEq
            · rw [hPK, hSK]
              omega
          exact ⟨_, getItem_updatePointer_self (putItem t hist)
            (resourceType, id) res (cur.versionId + 1) now hA, rfl⟩
      obtain ⟨itc, hitc, hitcres⟩ := hread
      simp [readCurrent, getResource, hrt, hid, hitc, hitcres, hresv]
      exact ⟨res, rfl, hresv⟩
  · intro t₀ now₀ freshId res₀ t₀' hc
    rcases createResource_cases t₀ now₀ freshId resourceType p with
      ⟨e, he⟩ | ⟨res2, item, _, _, _, hres1, _, _, _, _, _, _, he⟩
    · rw [he] at hc
      cases hc
    · rw [he] at hc
      cases hc
      exact hres1

/-- C2 witnessed: after creating `Patient/p1`, updating it yields
version 2 and reading it back returns version 2. -/
theorem c2_update_increments_version_and_read_agrees_witness :
    validateResourceType "Patient" = true ∧ ("p1" : String) ≠ "" ∧
    kindMismatch payloadB "Patient" = false ∧
    (getItem (runOps [Op.create 0 "g1" "Patient" payloadA])
      ("Patient", "p1") 1).map (fun it => it.versionId) = some 1 ∧
    (∃ res t', updateResource (runOps [Op.create 0 "g1" "Patient" payloadA]) 9
        "Patient" "p1" payloadB = .ok (res, t') ∧
      res.meta.versionId = 2 ∧
      (readCurrent t' "Patient" "p1").toOption.map
        (fun r => r.meta.versionId) = some 2) :=
  ⟨by decide, by decide, by decide, by decide,
    (c2_update_increments_version_and_read_agrees
      (runOps [Op.create 0 "g1" "Patient" payloadA]) 9 "Patient" "p1"
      payloadB 1 (by decide) (by decide) (by decide) (by decide)).1⟩

/-! ### Claim C5 -/

/-- C5: a second create for an already-stored (kind, id) fails with the
AlreadyExists error (the conditional insert is rejected) and leaves the
table, in particular the stored version-1 row, exactly unchanged. -/
theorem c5_duplicate_create_rejected_state_unchanged (t : Table) (now : Nat)
    (freshId resourceType id : String) (p : Payload)
    (hrt : validateResourceType resourceType = true)
    (hmis : kindMismatch p resourceType = false)
    (hpid : p.id = some id) (hid : id ≠ "")
    (hex : (getItem t (resourceType, id) 1).isSome = true) :
    createResource t now freshId resourceType p =
      .error (.alreadyExists resourceType id) ∧
    applyOp t (.create now freshId resourceType p) = t := by
  obtain ⟨cur, hcur⟩ := Option.isSome_iff_exists.mp hex
  have hjs : jsOr p.id freshId = id := by
    rw [hpid]
    simp [jsOr, hid]
  have h1 : createResource t now freshId resourceType p =
      .error (.alreadyExists resourceType id) := by
    simp [createResource, hrt, hmis, hjs, hcur]
  exact ⟨h1, by simp [applyOp, h1]⟩

/-- C5 witnessed: re-creating `Patient/p1` after `opsCreateDelete`
started with its creation is rejected and changes nothing. -/
theorem c5_duplicate_create_rejected_state_unchanged_witness :
    validateResourceType "Patient" = true ∧
    kindMismatch payloadB "Patient" = false ∧
    payloadB.id = some "p1" ∧ ("p1" : String) ≠ "" ∧
    (getItem (runOps [Op.create 0 "g1" "Patient" payloadA])
      ("Patient", "p1") 1).isSome = true ∧
    (createResource (runOps [Op.create 0 "g1" "Patient" payloadA]) 7 "g2"
        "Patient" payloadB = .error (.alreadyExists "Patient" "p1") ∧
      applyOp (runOps [Op.create 0 "g1" "Patient" payloadA])
        (.create 7 "g2" "Patient" payloadB) =
        runOps [Op.create 0 "g1" "Patient" payloadA]) :=
  ⟨by decide, by decide, by decide, by decide, by decide,
    c5_duplicate_create_rejected_state_unchanged
      (runOps [Op.create 0 "g1" "Patient" payloadA]) 7 "g2" "Patient" "p1"
      payloadB (by decide) (by decide) (by decide) (by decide) (by decide)⟩

/-! ### Claim C8 -/

/-- Whether an error is the NotFound error. -/
def isNotFoundErr : FhirError → Bool
  | .notFound _ _ => true
  | _ => false

/-- C8: read fails with NotFound exactly when the backend reports no row;
a backend failure is wrapped into the distinct backendFailure error and is
never reported as NotFound; a present row is returned as stored. -/
theorem c8_notfound_iff_no_row_and_backend_error_distinct
    (resourceType id msg : String) (item : Item)
    (hrt : validateResourceType resourceType = true) (hid : id ≠ "") :
    getResource resourceType id (.ok none) =
      .error (.notFound resourceType id) ∧
    getResource resourceType id (.err msg) =
      .error (.backendFailure "retrieve" msg) ∧
    (∀ e, getResource resourceType id (.err msg) = .error e →
      isNotFoundErr e = false) ∧
    getResource resourceType id (.ok (some item)) = .ok item.resource := by
  refine ⟨?_, ?_, ?_, ?_⟩
  · simp [getResource, hrt, hid]
  · simp [getResource, hrt, hid]
  · intro e he
    simp [getResource, hrt, hid] at he
    rw [← he]
    rfl
  · simp [getResource, hrt, hid]

/-- C8 witnessed at a concrete kind, id, message and row. -/
theorem c8_notfound_iff_no_row_and_backend_error_distinct_witness :
    validateResourceType "Patient" = true ∧ ("p1" : String) ≠ "" ∧
    (getResource "Patient" "p1" (.ok none) =
      .error (.notFound "Patient" "p1") ∧
    getResource "Patient" "p1" (.err "socket timeout") =
      .error (.backendFailure "retrieve" "socket timeout") ∧
    (∀ e, getResource "Patient" "p1" (.err "socket timeout") = .error e →
      isNotFoundErr e = false) ∧
    getResource "Patient" "p1" (.ok (some histRowEx)) =
      .ok histRowEx.resource) :=
  ⟨by decide, by decide,
    c8_notfound_iff_no_row_and_backend_error_distinct "Patient" "p1"
      "socket timeout" histRowEx (by decide) (by decide)⟩

/-! ### Claim C9 -/

/-- C9: update forces id and resourceType on the returned resource from
its arguments, silently overriding whatever id the payload carries, and
create likewise forces resourceType (and the id it chose) on the stored
resource. -/
theorem c9_update_overrides_payload_id_and_type (t : Table) (now : Nat)
    (resourceType id : String) (p : Payload)
    (hrt : validateResourceType resourceType = true) (hid : id ≠ "")
    (hmis : kindMismatch p resourceType = false)
    (hex : (getItem t (resourceType, id) 1).isSome = true) :
    (∃ res t', updateResource t now resourceType id p = .ok (res, t') ∧
      res.id = some id ∧ res.resourceType = some resourceType) ∧
    (∀ t₀ now₀ freshId res₀ t₀',
      createResource t₀ now₀ freshId resourceType p = .ok (res₀, t₀') →
      res₀.resourceType = some resourceType ∧
      res₀.id = some (jsOr p.id freshId)) := by
  obtain ⟨cur, hcur⟩ := Option.isSome_iff_exists.mp hex
  constructor
  · rcases updateResource_cases t now resourceType id p with
      ⟨e, he⟩ | ⟨cur2, res, hist, hcur2, _, _, _, _, _, hres2, hres3, _, _, _,
        he⟩
    · simp [updateResource, hrt, hid, hmis, hcur] at he
    · exact ⟨res, _, he, hres3, hres2⟩
  · intro t₀ now₀ freshId res₀ t₀' hc
    rcases createResource_cases t₀ now₀ freshId resourceType p with
      ⟨e, he⟩ | ⟨res2, item, _, _, _, _, hres2, hres3, _, _, _, _, he⟩
    · rw [he] at hc
      cases hc
    · rw [he] at hc
      cases hc
      exact ⟨hres2, hres3⟩

/-- C9 witnessed: updating `Patient/p1` with a payload that carries the
different id `zz` still returns a resource with id `p1`. -/
theorem c9_update_overrides_payload_id_and_type_witness :
    validateResourceType "Patient" = true ∧ ("p1" : String) ≠ "" ∧
    kindMismatch
      { resourceType := none, id := some "zz", metaProfile := none,
        subjectRef := none, deletedMarker := false, body := "Z" }
      "Patient" = false ∧
    (getItem (runOps [Op.create 0 "g1" "Patient" payloadA])
      ("Patient", "p1") 1).isSome = true ∧
    (∃ res t', updateResource (runOps [Op.create 0 "g1" "Patient" payloadA]) 9
        "Patient" "p1"
        { resourceType := none, id := some "zz", metaProfile := none,
          subjectRef := none, deletedMarker := false, body := "Z" } =
        .ok (res, t') ∧
      res.id = some "p1" ∧ res.resourceType = some "Patient") :=
  ⟨by decide, by decide, by decide, by decide,
    (c9_update_overrides_payload_id_and_type
      (runOps [Op.create 0 "g1" "Patient" payloadA]) 9 "Patient" "p1"
      { resourceType := none, id := some "zz", metaProfile := none,
        subjectRef := none, deletedMarker := false, body := "Z" }
      (by decide) (by decide) (by decide) (by decide)).1⟩

/-! ### Claim C7 -/

/-- C7 counterexample: after create, update and delete, the identity is
tombstoned (current row deleted at version 3), yet the default search on
the kind still returns it, because the `v2` history row written by the
update carries no `deleted` attribute and passes the search filter. -/
theorem c7_search_returns_stale_history_of_deleted :
    ((getItem (runOps opsCreateUpdateDelete) ("Patient", "p1") 1).map
      (fun it => (it.deleted, it.versionId)) = some (some true, 3)) ∧
    ((searchResources (runOps opsCreateUpdateDelete) "b0" "Patient"
      defaultSearch).toOption.map
      (fun b => b.entry.map (fun e => e.fullUrl)) = some ["Patient/p1"]) := by
  decide

/-- C7 (amended): delete on an existing identity with current version v
succeeds, leaves the current record with `deleted = true` and version
v + 1, and a subsequent read still returns the tombstoned resource at
version v + 1; the tombstoned current row itself is excluded from every
search result, but history rows written by earlier updates carry no
tombstone, so a previously-updated identity can still surface in search. -/
theorem c7_delete_tombstone_read_and_search (t : Table) (now : Nat)
    (resourceType id : String) (v : Nat)
    (hrt : validateResourceType resourceType = true) (hid : id ≠ "")
    (hcur : (getItem t (resourceType, id) 1).map (fun it => it.versionId) =
      some v) :
    ∃ t', deleteResource t now resourceType id = .ok t' ∧
      (getItem t' (resourceType, id) 1).map
        (fun it => (it.deleted, it.versionId)) = some (some true, v + 1) ∧
      (readCurrent t' resourceType id).toOption.map
        (fun r => (r.deletedMarker, r.meta.versionId)) = some (true, v + 1) ∧
      (∀ typeKey flag limit it', it' ∈ queryGSI1 t' typeKey flag limit →
        ¬(it'.PK = (resourceType, id) ∧ it'.SK = 1)) ∧
      (∀ patientKey limit it', it' ∈ queryGSI2 t' patientKey limit →
        ¬(it'.PK = (resourceType, id) ∧ it'.SK = 1)) := by
  obtain ⟨cur, hcurEq, hvEq⟩ := Option.map_eq_some'.mp hcur
  subst hvEq
  rcases deleteResource_cases t now resourceType id with
    ⟨e, he⟩ | ⟨cur3, d, hcur3, hPK, hSK, hvid, hdel, hrdel, hrv, hrl, _, _, he⟩
  · simp [deleteResource, hrt, hid, hcurEq] at he
  · rw [hcurEq] at hcur3
    cases hcur3
    obtain ⟨hcPK, hcSK⟩ := getItem_key hcurEq
    have hself := getItem_putItem_self t d
    rw [hPK.trans hcPK, hSK.trans hcSK] at hself
    refine ⟨putItem t d, he, ?_, ?_, ?_, ?_⟩
    · rw [hself]
      simp [hdel, hvid]
    · simp [readCurrent, getResource, hrt, hid, hself]
      exact ⟨d.resource, rfl, by rw [hrdel, hrv]; exact ⟨rfl, rfl⟩⟩
    · intro typeKey flag limit it' hmem hc
      obtain ⟨hmemT, hnd, _⟩ := mem_queryGSI1 hmem
      rcases mem_putItem t d hmemT with h' | ⟨_, hne⟩
      · subst h'
        simp [itemNotDeleted, hdel] at hnd
      · exact hne ⟨hc.1.trans (hPK.trans hcPK).symm,
          hc.2.trans (hSK.trans hcSK).symm⟩
    · intro patientKey limit it' hmem hc
      obtain ⟨hmemT, hnd, _⟩ := mem_queryGSI2 hmem
      rcases mem_putItem t d hmemT with h' | ⟨_, hne⟩
      · subst h'
        simp [itemNotDeleted, hdel] at hnd
      · exact hne ⟨hc.1.trans (hPK.trans hcPK).symm,
          hc.2.trans (hSK.trans hcSK).symm⟩

/-- C7 amended claim witnessed on a freshly created `Patient/p1`. -/
theorem c7_delete_tombstone_read_and_search_witness :
    validateResourceType "Patient" = true ∧ ("p1" : String) ≠ "" ∧
    (getItem (runOps [Op.create 0 "g1" "Patient" payloadA])
      ("Patient", "p1") 1).map (fun it => it.versionId) = some 1 ∧
    (∃ t', deleteResource (runOps [Op.create 0 "g1" "Patient" payloadA]) 4
        "Patient" "p1" = .ok t' ∧
      (getItem t' ("Patient", "p1") 1).map
        (fun it => (it.deleted, it.versionId)) = some (some true, 2) ∧
      (readCurrent t' "Patient" "p1").toOption.map
        (fun r => (r.deletedMarker, r.meta.versionId)) = some (true, 2) ∧
      (∀ typeKey flag limit it', it' ∈ queryGSI1 t' typeKey flag limit →
        ¬(it'.PK = ("Patient", "p1") ∧ it'.SK = 1)) ∧
      (∀ patientKey limit it', it' ∈ queryGSI2 t' patientKey limit →
        ¬(it'.PK = ("Patient", "p1") ∧ it'.SK = 1))) :=
  ⟨by decide, by decide, by decide,
    c7_delete_tombstone_read_and_search
      (runOps [Op.create 0 "g1" "Patient" payloadA]) 4 "Patient" "p1" 1
      (by decide) (by decide) (by decide)⟩

/-! ### Claim C10 -/

/-- C10 counterexample: an Observation created with owner `Patient/alice`
and then updated with a payload lacking `subject.reference` is still
returned (with its new owner-less content, at version 2) by the
owner-filtered search for alice, because the update leaves the GSI2 key
of the current row untouched; only the update's history row moves to the
`unknown` bucket. -/
theorem c10_ownerless_update_still_in_old_owner_bucket :
    (searchResources (runOps opsObsOwnerChange) "b0" "Observation"
      { count := none, offset := none, lastUpdated := none,
        subject := some "Patient/alice", includeDeleted := false }).toOption.map
      (fun b => b.entry.map
        (fun e => (e.fullUrl, e.resource.subjectRef,
          e.resource.meta.versionId))) =
      some [("Observation/o1", none, 2)] := by
  decide

/-- C10 (amended): creating or updating a non-Patient resource whose
payload lacks a `subject.reference` succeeds; the newly written row (the
created current row, or the update's history row) lands in the sentinel
`unknown` owner bucket, and a freshly created owner-less resource is
never selected by an owner-filtered search for a real patient.  After an
update, however, the current row keeps its previous owner bucket, so an
owner-less update of a resource created with a real owner is still
returned by that owner's search. -/
theorem c10_ownerless_write_lands_in_unknown_bucket (t : Table) (now : Nat)
    (freshId resourceType : String) (p : Payload)
    (hrt : validateResourceType resourceType = true)
    (hpat : resourceType ≠ "Patient") (hsub : p.subjectRef = none)
    (hmis : kindMismatch p resourceType = false) :
    (getItem t (resourceType, jsOr p.id freshId) 1 = none →
      ∃ res t', createResource t now freshId resourceType p = .ok (res, t') ∧
        ∃ newIt, getItem t' (resourceType, jsOr p.id freshId) 1 = some newIt ∧
          newIt.gsi2PK = "unknown" ∧
          ∀ patientKey limit, patientKey ≠ "unknown" →
            newIt ∉ queryGSI2 t' patientKey limit) ∧
    (∀ id v, id ≠ "" →
      (getItem t (resourceType, id) 1).map (fun it => it.versionId) = some v →
      1 ≤ v →
      ∃ res t', updateResource t now resourceType id p = .ok (res, t') ∧
        ∃ histIt, getItem t' (resourceType, id) (v + 1) = some histIt ∧
          histIt.gsi2PK = "unknown") := by
  constructor
  · intro habs
    rcases createResource_cases t now freshId resourceType p with
      ⟨e, he⟩ | ⟨res, item, hSK1, _, _, _, _, _, hitemPK, _, _, hgsi2, he⟩
    · simp [createResource, hrt, hmis, habs] at he
    · refine ⟨res, _, he, item, ?_, ?_, ?_⟩
      · rw [getItem_append, habs, Option.none_or, getItem_singleton,
          if_pos ⟨hitemPK, hSK1⟩]
      · rw [hgsi2, if_neg hpat, hsub]
        rfl
      · intro patientKey limit hp hmem
        obtain ⟨_, _, hg2⟩ := mem_queryGSI2 hmem
        apply hp
        rw [← hg2, hgsi2, if_neg hpat, hsub]
        rfl
  · intro id v hid hcurm hv
    obtain ⟨cur, hcurEq, hvEq⟩ := Option.map_eq_some'.mp hcurm
    subst hvEq
    rcases updateResource_cases t now resourceType id p with
      ⟨e, he⟩ | ⟨cur2, res, hist, hcur2, hPK, hSK, hvid, hdel, hresv, _, _, _,
        _, hg2, he⟩
    · simp [updateResource, hrt, hid, hmis, hcurEq] at he
    · rw [hcurEq] at hcur2
      cases hcur2
      refine ⟨res, _, he, hist, ?_, ?_⟩
      · rw [getItem_updatePointer_ne _ _ _ _ _ (by omega)]
        have hself := getItem_putItem_self t hist
        rw [hPK, hSK] at hself
        exact hself
      · rw [hg2, if_neg hpat, hsub]
        rfl

/-- C10 amended claim witnessed: an owner-less Observation create lands
in the `unknown` bucket, and an owner-less update of an existing
Observation writes its history row into the `unknown` bucket. -/
theorem c10_ownerless_write_lands_in_unknown_bucket_witness :
    validateResourceType "Observation" = true ∧
    ("Observation" : String) ≠ "Patient" ∧
    payloadObsOwnerless.subjectRef = none ∧
    kindMismatch payloadObsOwnerless "Observation" = false ∧
    (getItem ([] : Table)
      ("Observation", jsOr payloadObsOwnerless.id "g1") 1 = none →
      ∃ res t', createResource ([] : Table) 0 "g1" "Observation"
          payloadObsOwnerless = .ok (res, t') ∧
        ∃ newIt, getItem t'
            ("Observation", jsOr payloadObsOwnerless.id "g1") 1 =
            some newIt ∧
          newIt.gsi2PK = "unknown" ∧
          ∀ patientKey limit, patientKey ≠ "unknown" →
            newIt ∉ queryGSI2 t' patientKey limit) ∧
    (∀ id v, id ≠ "" →
      (getItem ([] : Table) ("Observation", id) 1).map
        (fun it => it.versionId) = some v →
      1 ≤ v →
      ∃ res t', updateResource ([] : Table) 0 "Observation" id
          payloadObsOwnerless = .ok (res, t') ∧
        ∃ histIt, getItem t' ("Observation", id) (v + 1) = some histIt ∧
          histIt.gsi2PK = "unknown") :=
  ⟨by decide, by decide, by decide, by decide,
    (c10_ownerless_write_lands_in_unknown_bucket ([] : Table) 0 "g1"
      "Observation" payloadObsOwnerless (by decide) (by decide) (by decide)
      (by decide)).1,
    (c10_ownerless_write_lands_in_unknown_bucket ([] : Table) 0 "g1"
      "Observation" payloadObsOwnerless (by decide) (by decide) (by decide)
      (by decide)).2⟩

/-! ### Claim C3 -/

/-- C3 counterexample: a tombstoned row exists, yet a search that
explicitly passes `includeDeleted := true` still returns an empty result
set: the store recognises no such option and filters tombstones
unconditionally. -/
theorem c3_includeDeleted_has_no_effect :
    ((runOps opsCreateDelete).any (fun it => it.deleted == some true)) =
      true ∧
    (searchResources (runOps opsCreateDelete) "b0" "Patient"
      { count := none, offset := none, lastUpdated := none, subject := none,
        includeDeleted := true }).toOption.map
      (fun b => (b.total, b.entry)) = some (0, []) := by
  decide

/-- C3 (amended): search excludes tombstoned rows unconditionally: every
returned entry comes from a stored row whose `deleted` attribute is not
true, and the result is entirely independent of any `includeDeleted`
option, which the code never reads. -/
theorem c3_search_always_excludes_tombstones (t : Table)
    (bundleId resourceType : String) (sp : SearchParams) (b : FHIRBundle)
    (h : searchResources t bundleId resourceType sp = .ok b) :
    (∀ e ∈ b.entry, ∃ it, it ∈ t ∧ it.resource = e.resource ∧
      it.deleted ≠ some true) ∧
    (∀ flag, searchResources t bundleId resourceType
      { sp with includeDeleted := flag } =
      searchResources t bundleId resourceType sp) := by
  constructor
  · intro e he
    simp only [searchResources] at h
    split at h
    · cases h
    · split at h
      · cases h
        simp only [mkBundle] at he
        obtain ⟨it, hitmem, hentry⟩ := List.mem_map.mp he
        obtain ⟨hmemT, hnd, _⟩ := mem_queryGSI2 hitmem
        refine ⟨it, hmemT, ?_, ?_⟩
        · rw [← hentry]
        · intro hc
          simp [itemNotDeleted, hc] at hnd
      · cases h
        simp only [mkBundle] at he
        obtain ⟨it, hitmem, hentry⟩ := List.mem_map.mp he
        obtain ⟨hmemT, hnd, _⟩ := mem_queryGSI1 hitmem
        refine ⟨it, hmemT, ?_, ?_⟩
        · rw [← hentry]
        · intro hc
          simp [itemNotDeleted, hc] at hnd
  · intro flag
    obtain ⟨c, o, l, s, i⟩ := sp
    rfl

/-- C3 amended claim witnessed on the create-delete run. -/
theorem c3_search_always_excludes_tombstones_witness :
    ∃ b, searchResources (runOps opsCreateDelete) "b1" "Patient"
        defaultSearch = .ok b ∧
      ((∀ e ∈ b.entry, ∃ it, it ∈ runOps opsCreateDelete ∧
        it.resource = e.resource ∧ it.deleted ≠ some true) ∧
      (∀ flag, searchResources (runOps opsCreateDelete) "b1" "Patient"
        { defaultSearch with includeDeleted := flag } =
        searchResources (runOps opsCreateDelete) "b1" "Patient"
          defaultSearch)) :=
  ⟨_, rfl, c3_search_always_excludes_tombstones (runOps opsCreateDelete)
    "b1" "Patient" defaultSearch _ rfl⟩

/-! ### Claim C4 -/

/-- C4 counterexample: with `Patient/a` created at time 0 and updated at
time 1, and `Patient/b` created at time 2, the default search returns
entries last modified at times 1, 2, 1: the update of a sorts before the
more recently modified b (UPDATED rows sort before CREATED rows in the
index), and the same identity even appears twice. -/
theorem c4_search_not_ordered_by_modification_time :
    (searchResources (runOps opsInterleaved) "b0" "Patient"
      defaultSearch).toOption.map
      (fun b => b.entry.map
        (fun e => (e.fullUrl, e.resource.meta.lastUpdated))) =
      some [("Patient/a", 1), ("Patient/b", 2), ("Patient/a", 1)] := by
  decide

/-- C4 (amended): result sets never exceed the page size, which defaults
to 20 when `_count` is absent; the entries of a non-owner search are the
image of the GSI1 query, whose rows are ordered descending by the GSI1
sort key, i.e. update-written rows (prefix UPDATED) before create-written
rows (prefix CREATED) and by timestamp descending only within the same
prefix, which is not modification-time order across the two kinds of
rows. -/
theorem c4_search_order_and_limit (t : Table) (bundleId resourceType : String)
    (sp : SearchParams) (b : FHIRBundle)
    (hsub : jsTruthy sp.subject = false)
    (h : searchResources t bundleId resourceType sp = .ok b) :
    b.entry.length ≤ effectiveCount sp.count ∧
    (sp.count = none → b.entry.length ≤ 20) ∧
    b.entry = (queryGSI1 t resourceType (jsTruthy sp.lastUpdated)
        (effectiveCount sp.count)).map
      (fun it =>
        { resource := it.resource
          fullUrl :=
            resourceType ++ "/" ++ (it.resource.id.getD "undefined") }) ∧
    List.Sorted gsi1Desc (queryGSI1 t resourceType (jsTruthy sp.lastUpdated)
      (effectiveCount sp.count)) := by
  simp only [searchResources] at h
  split at h
  · cases h
  · rw [if_neg ?_] at h
    · cases h
      refine ⟨?_, ?_, rfl, queryGSI1_sorted t resourceType
        (jsTruthy sp.lastUpdated) (effectiveCount sp.count)⟩
      · simp only [mkBundle, List.length_map]
        exact queryGSI1_length t resourceType (jsTruthy sp.lastUpdated)
          (effectiveCount sp.count)
      · intro hc
        simp only [mkBundle, List.length_map]
        rw [hc]
        exact queryGSI1_length t resourceType (jsTruthy sp.lastUpdated)
          (effectiveCount none)
    · intro hc
      rw [hsub] at hc
      cases hc.1

/-- C4 amended claim witnessed on the interleaved create-update-create
run. -/
theorem c4_search_order_and_limit_witness :
    jsTruthy defaultSearch.subject = false ∧
    ∃ b, searchResources (runOps opsInterleaved) "b0" "Patient"
        defaultSearch = .ok b ∧
      (b.entry.length ≤ effectiveCount defaultSearch.count ∧
      (defaultSearch.count = none → b.entry.length ≤ 20) ∧
      b.entry = (queryGSI1 (runOps opsInterleaved) "Patient"
          (jsTruthy defaultSearch.lastUpdated)
          (effectiveCount defaultSearch.count)).map
        (fun it =>
          { resource := it.resource
            fullUrl :=
              "Patient" ++ "/" ++ (it.resource.id.getD "undefined") }) ∧
      List.Sorted gsi1Desc (queryGSI1 (runOps opsInterleaved) "Patient"
        (jsTruthy defaultSearch.lastUpdated)
        (effectiveCount defaultSearch.count))) :=
  ⟨by decide, _, rfl,
    c4_search_order_and_limit (runOps opsInterleaved) "b0" "Patient"
      defaultSearch _ (by decide) rfl⟩
